import Mathlib

/-!
# CoreIO router: route registration and response adaptation

A shallow embedding of `src/router.js` (class `Router`): the registrar
(`registerRoutes`, `createConfig`), the table maintenance loops
(`removeRoute`, `resetRoutes`) and the response adapter (`requestHandler`).

JavaScript values are embedded as far as the router looks at them: truthiness,
`typeof`, property reads and strict equality on strings.
-/

namespace CoreIO

/-! ## JavaScript values -/

/-- Plain data: the values that are not promise-like. Numbers are integers or
`NaN`; an object is its list of data properties. -/
inductive Data where
  | undefined : Data
  | null : Data
  | bool (b : Bool) : Data
  | num (n : Int) : Data
  | nan : Data
  | str (s : String) : Data
  | obj (fields : List (String × Data)) : Data

/-- How a promise-like value settles. -/
inductive Settled where
  | resolved (data : Data) : Settled
  | rejected (err : Data) : Settled
  | pending : Settled

/-- A value a handler can produce: plain data, or a promise-like object (one
whose `then` and `catch` are functions). -/
inductive JsVal where
  | data (d : Data) : JsVal
  | thenable (s : Settled) : JsVal

/-- JavaScript errors raised by the router itself. -/
inductive JsError where
  | typeError (msg : String) : JsError
  deriving DecidableEq, Repr

/-- The `typeof` operator on plain data. -/
def Data.typeof : Data → String
  | .undefined => "undefined"
  | .null => "object"
  | .bool _ => "boolean"
  | .num _ => "number"
  | .nan => "number"
  | .str _ => "string"
  | .obj _ => "object"

/-- JavaScript truthiness of plain data: `undefined`, `null`, `false`, `0`,
`NaN` and `''` are falsy. -/
def Data.truthy : Data → Bool
  | .undefined => false
  | .null => false
  | .bool b => b
  | .num n => n != 0
  | .nan => false
  | .str s => s != ""
  | .obj _ => true

/-- The test `p === ''`. -/
def Data.isEmptyStr : Data → Bool
  | .str s => s == ""
  | _ => false

/-- Property read `d.key` on a non-nullish value: a data property of an
object, `undefined` when the object has none, and `undefined` on primitives. -/
def Data.prop (key : String) : Data → Data
  | .obj fields => (fields.lookup key).getD .undefined
  | _ => .undefined

/-- The operator `a || b`. -/
def Data.orElse (a b : Data) : Data :=
  if a.truthy then a else b

/-- The `typeof` operator on handler results: a promise-like value is an
object. -/
def JsVal.typeof : JsVal → String
  | .data d => d.typeof
  | .thenable _ => "object"

/-- Truthiness of handler results: every object is truthy. -/
def JsVal.truthy : JsVal → Bool
  | .data d => d.truthy
  | .thenable _ => true

/-! ## The routing table -/

/-- The HTTP methods of `HTTP_METHODS`. -/
inductive HttpMethod where
  | get | post | put | patch | delete
  deriving DecidableEq, Repr

/-- The constant `HTTP_METHODS`, in source order. -/
def HTTP_METHODS : List HttpMethod :=
  [.get, .post, .put, .patch, .delete]

/-- The request, as far as the adapter reads it: `req.accepts('json')`. -/
structure Req where
  acceptsJson : Bool
  deriving DecidableEq, Repr

/-- The six handler bodies that `createConfig` generates. -/
inductive CrudOp where
  | readOne | create | replace | patch | delete | readList
  deriving DecidableEq, Repr

/-- A class passed as `conf.model` or `conf.list`, seen through what a
generated handler returns when it runs one operation against it. -/
structure ClassRef where
  name : String
  perform : CrudOp → Req → JsVal

/-- A value found under a method key of a route descriptor: a function given by
the caller, any other value given by the caller, or a handler generated by
`createConfig` for a class. -/
inductive Handler where
  | func (f : Req → JsVal) : Handler
  | value (v : JsVal) : Handler
  | crud (op : CrudOp) (cls : ClassRef) : Handler

/-- Truthiness of `c[method]`: functions are truthy. -/
def Handler.truthy : Handler → Bool
  | .func _ => true
  | .value v => v.truthy
  | .crud _ _ => true

/-- An entry of `app._router.stack`: its `name`, its `path` (`none` for
`undefined`), and for a bound route its method and the handler that was
wrapped. -/
structure Layer where
  name : String
  path : Option String
  method : Option HttpMethod := none
  handler : Option Handler := none

/-- Modelled from the spec: `Server.route(method, path, handler)` is called by
`registerRoutes` but is not defined in `src/server.js`. Per section 6 it
registers the handler in the routing table, which is inspectable by path and
by the marker of dynamically bound entries: one layer named `bound dispatch`
is appended. -/
def route (method : HttpMethod) (path : String) (h : Handler)
    (stack : List Layer) : List Layer :=
  stack ++ [{ name := "bound dispatch", path := some path,
              method := some method, handler := some h }]

/-- The layer that `route` appends for a generated handler: how an entry
`METHOD path` of the routing table is written below. -/
def crudEntry (method : HttpMethod) (path : String) (op : CrudOp) (cls : ClassRef) : Layer :=
  { name := "bound dispatch", path := some path,
    method := some method, handler := some (.crud op cls) }

/-! ## removeRoute and resetRoutes -/

/-- The `while (true)` loop shared by `removeRoute` and `resetRoutes`, with
the index `i` and the stack as state; `hit` is the test of the inner `if`.
`stack[i]` is `undefined` past the end, which breaks the loop; a hit is
spliced out and `i` stays, otherwise `i` advances. One unit of fuel is one
iteration; `none` means the fuel ran out. -/
def scanLoop (hit : Layer → Bool) : Nat → Nat → List Layer → Option (List Layer)
  | 0, _, _ => none
  | fuel + 1, i, stack =>
    match stack[i]? with
    | none => some stack
    | some layer =>
      if hit layer then scanLoop hit fuel i (stack.eraseIdx i)
      else scanLoop hit fuel (i + 1) stack

/-- Lines 178-192, `removeRoute(path)`, run for at most `fuel` iterations:
the test is `layer.path === path`. -/
def removeRoute (fuel : Nat) (path : Option String) (stack : List Layer) :
    Option (List Layer) :=
  scanLoop (fun layer => layer.path == path) fuel 0 stack

/-- Lines 194-208, `resetRoutes()`, run for at most `fuel` iterations: the
test is `layer.name === 'bound dispatch'`. -/
def resetRoutes (fuel : Nat) (stack : List Layer) : Option (List Layer) :=
  scanLoop (fun layer => layer.name == "bound dispatch") fuel 0 stack

/-! ## The response adapter -/

/-- A call the adapter makes on the response object `res`. -/
inductive ResAction where
  | type (t : String) : ResAction
  | status (code : Data) : ResAction
  | end_ : ResAction
  | json (body : Data) : ResAction
  | send (body : Data) : ResAction

/-- Line 152, `typeof fn === 'object' ? fn : fn(req, res, next)`: an object is
taken as the result itself, a function is called, and calling anything else
raises a `TypeError`. -/
def handlerResult (fn : Handler) (req : Req) : Except JsError JsVal :=
  match fn with
  | .func f => .ok (f req)
  | .crud op cls => .ok (cls.perform op req)
  | .value v =>
    if v.typeof == "object" then .ok v
    else .error (.typeError "fn is not a function")

/-- Lines 165-166 and 172-173: `res.status(200)`, then the conditional
expression `typeof data === 'object' && req.accepts('json') ? res.json(data) : data`,
whose second branch only evaluates `data`. -/
def onValue (req : Req) (data : Data) : List ResAction :=
  [.status (.num 200)] ++
    (if data.typeof == "object" && req.acceptsJson then [.json data] else [])

/-- Lines 168-169, the `catch` callback: `res.status(err.statusCode || 500)`
and `res.send(err.message)`. Reading a property of `undefined` or `null`
throws inside the callback before the response is touched. -/
def onRejected (err : Data) : List ResAction :=
  match err with
  | .undefined => []
  | .null => []
  | e => [.status ((e.prop "statusCode").orElse (.num 500)), .send (e.prop "message")]

/-- Lines 153-174: the calls made on `res` for the handler result `p`, those
made from the `then` and `catch` callbacks included. -/
def respond (req : Req) (p : JsVal) : List ResAction :=
  match p with
  | .data d =>
    if !d.truthy then
      (if d.isEmptyStr then [.type "text/plain", .status (.num 204), .end_] else [])
    else onValue req d
  | .thenable (.resolved data) => onValue req data
  | .thenable (.rejected err) => onRejected err
  | .thenable .pending => []

/-- The handler returned by `requestHandler(fn)`, applied to a request: the
calls it makes on the response, or the error it raises. -/
def requestHandler (fn : Handler) (req : Req) : Except JsError (List ResAction) :=
  (handlerResult fn req).map (respond req)

/-! ## The registrar -/

/-- A route descriptor as passed to `registerRoutes`; `none` is an absent
property. -/
structure Conf where
  slug : Option String := none
  allow : Option (List String) := none
  model : Option ClassRef := none
  list : Option ClassRef := none
  get : Option Handler := none
  post : Option Handler := none
  put : Option Handler := none
  patch : Option Handler := none
  delete : Option Handler := none

/-- The property read `c[method]`. -/
def Conf.handlerOf (c : Conf) : HttpMethod → Option Handler
  | .get => c.get
  | .post => c.post
  | .put => c.put
  | .patch => c.patch
  | .delete => c.delete

/-- The call `s.replace(/\/$/, '')`: one slash at the end of the string is
removed. -/
def stripSlash (s : String) : String :=
  match s.data.reverse with
  | '/' :: rest => String.mk rest.reverse
  | _ => s

/-- The expression `conf.slug.replace(/\/$/, '')`, which throws when the slug
is `undefined`. -/
def slugBase (conf : Conf) : Except JsError String :=
  match conf.slug with
  | none => .error (.typeError "conf.slug is undefined")
  | some s => .ok (stripSlash s)

/-- The test `conf.allow.indexOf(op) !== -1`, which throws when the allow-list
is `undefined`. -/
def allows (conf : Conf) (op : String) : Except JsError Bool :=
  match conf.allow with
  | none => .error (.typeError "conf.allow is undefined")
  | some a => .ok (a.contains op)

/-- One `newConf.push` guarded by `if (conf.allow.indexOf(op) !== -1)`: the
descriptors built from the stripped slug are appended when the operation is
allowed. -/
def pushIfAllowed (conf : Conf) (op : String) (mk : String → List Conf)
    (newConf : List Conf) : Except JsError (List Conf) := do
  if (← allows conf op) then
    let s ← slugBase conf
    pure (newConf ++ mk s)
  else
    pure newConf

/-- Lines 71-148, `createConfig(conf)`. -/
def createConfig (conf : Conf) : Except JsError (List Conf) := do
  let newConf : List Conf := []
  let newConf ←
    match conf.model with
    | some M => do
      let newConf ← pushIfAllowed conf "READ"
        (fun s => [{ slug := some (s ++ "/:id"), get := some (.crud .readOne M) }]) newConf
      let newConf ← pushIfAllowed conf "CREATE"
        (fun s => [{ slug := some s, post := some (.crud .create M) }]) newConf
      let newConf ← pushIfAllowed conf "UPDATE"
        (fun s => [{ slug := some (s ++ "/:id"), put := some (.crud .replace M) },
                   { slug := some (s ++ "/:id"), patch := some (.crud .patch M) }]) newConf
      pushIfAllowed conf "DELETE"
        (fun s => [{ slug := some (s ++ "/:id"), delete := some (.crud .delete M) }]) newConf
    | none => pure newConf
  match conf.list with
  | some L =>
    pushIfAllowed conf "READ"
      (fun s => [{ slug := some s, get := some (.crud .readList L) }]) newConf
  | none => pure newConf

/-- Lines 51-58: the body of `for (const c of conf)`. A descriptor whose slug
is falsy is skipped; otherwise every truthy `c[method]` is routed, in the order
of `HTTP_METHODS`. -/
def registerConf (c : Conf) (stack : List Layer) : List Layer :=
  match c.slug with
  | none => stack
  | some slug =>
    if slug != "" then
      HTTP_METHODS.foldl
        (fun st method =>
          match c.handlerOf method with
          | some h => if h.truthy then route method slug h st else st
          | none => st)
        stack
    else stack

/-- Lines 41-62, `registerRoutes(conf)`: the routing table after the call, or
the error the call raises. -/
def registerRoutes (conf : Conf) (stack : List Layer) : Except JsError (List Layer) := do
  let conf := { conf with allow := some (conf.allow.getD ["READ"]) }
  let confs ←
    if conf.model.isSome || conf.list.isSome then createConfig conf
    else pure [conf]
  pure (confs.foldl (fun st c => registerConf c st) stack)

/-- The method and path of a layer, for reading off a table. -/
def Layer.key (l : Layer) : Option HttpMethod × Option String :=
  (l.method, l.path)

/-! ## Sample inputs -/

/-- A model class whose operations never settle. -/
def sampleModel : ClassRef :=
  { name := "Model", perform := fun _ _ => .thenable .pending }

/-- A list class whose operations never settle. -/
def sampleList : ClassRef :=
  { name := "List", perform := fun _ _ => .thenable .pending }

/-- The methods and paths of the entries a registration leaves in an empty
table, `none` when the call raises an error. -/
def routesOf (conf : Conf) : Option (List (Option HttpMethod × Option String)) :=
  (registerRoutes conf []).toOption.map (fun table => table.map Layer.key)

/-! ## Table maintenance: proofs -/

/-- The loop invariant of `scanLoop`: started at index `pre.length` on
`pre ++ post` with more fuel than `post` has entries, the loop stops and
returns `pre` followed by the entries of `post` that the test misses. -/
theorem scanLoop_append (hit : Layer → Bool) (post : List Layer) :
    ∀ (pre : List Layer) (fuel : Nat), post.length < fuel →
      scanLoop hit fuel pre.length (pre ++ post)
        = some (pre ++ post.filter (fun layer => !hit layer)) := by
  induction post with
  | nil =>
    intro pre fuel hfuel
    cases fuel with
    | zero => simp at hfuel
    | succ fuel => simp [scanLoop]
  | cons x post ih =>
    intro pre fuel hfuel
    cases fuel with
    | zero => simp at hfuel
    | succ fuel =>
      have hlt : post.length < fuel := by simpa using hfuel
      have hget : (pre ++ x :: post)[pre.length]? = some x := by
        rw [List.getElem?_append_right (Nat.le_refl _)]
        simp
      rw [scanLoop, hget]
      by_cases hx : hit x = true
      · have herase : (pre ++ x :: post).eraseIdx pre.length = pre ++ post := by
          rw [List.eraseIdx_append_of_length_le (Nat.le_refl _)]
          simp
        simp only [hx, if_true, herase]
        rw [ih pre fuel hlt]
        simp [List.filter_cons, hx]
      · have hx' : hit x = false := by simpa using hx
        have hsplit : pre ++ x :: post = (pre ++ [x]) ++ post := by simp
        have hlen : pre.length + 1 = (pre ++ [x]).length := by simp
        simp only [hx', Bool.false_eq_true, if_false]
        rw [hsplit, hlen, ih (pre ++ [x]) fuel hlt]
        simp [List.filter_cons, hx']

/-- From index 0 the loop returns the entries that the test misses, for every
amount of fuel above the length of the stack. -/
theorem scanLoop_eq_filter (hit : Layer → Bool) (stack : List Layer) (extra : Nat) :
    scanLoop hit (stack.length + 1 + extra) 0 stack
      = some (stack.filter (fun layer => !hit layer)) := by
  have h := scanLoop_append hit stack [] (stack.length + 1 + extra) (by omega)
  simpa using h

/-- A run of `removeRoute` on a table whose matching entries sit first, next
to each other and last: the two other entries remain, in order. -/
theorem removeRoute_sample :
    (removeRoute 6 (some "/a")
        [⟨"bound dispatch", some "/a", some .get, none⟩,
         ⟨"bound dispatch", some "/a", some .post, none⟩,
         ⟨"jsonParser", none, none, none⟩,
         ⟨"bound dispatch", some "/b", some .get, none⟩,
         ⟨"bound dispatch", some "/a", some .delete, none⟩]).map
      (fun table => table.map Layer.key)
      = some [(none, none), (some .get, some "/b")] := by
  decide

/-- C4: for every routing table and every path, `removeRoute(path)` stops
within `stack.length + 1` iterations of its loop (any larger budget gives the
same result) and leaves exactly the entries whose path differs from `path`,
unchanged and in their original order. -/
theorem removeRoute_removes_exactly_matching (stack : List Layer)
    (path : Option String) (extra : Nat) :
    removeRoute (stack.length + 1 + extra) path stack
      = some (stack.filter (fun layer => layer.path != path)) := by
  unfold removeRoute
  rw [scanLoop_eq_filter]
  rfl

/-- C5: for every routing table, `resetRoutes()` stops within
`stack.length + 1` iterations of its loop and leaves exactly the entries whose
name is not `bound dispatch`, unchanged and in their original order. -/
theorem resetRoutes_keeps_static_layers (stack : List Layer) (extra : Nat) :
    resetRoutes (stack.length + 1 + extra) stack
      = some (stack.filter (fun layer => layer.name != "bound dispatch")) := by
  unfold resetRoutes
  rw [scanLoop_eq_filter]
  rfl

/-! ## The registrar: proofs -/

/-- A slug suffixed with `/:id` is never the empty string. -/
theorem append_id_truthy (s : String) : ((s ++ "/:id") != "") = true := by
  simp only [bne_iff_ne, ne_eq]
  intro h
  have hlen := congrArg String.length h
  have h4 : "/:id".length = 4 := by decide
  rw [String.length_append, h4] at hlen
  have h0 : "".length = 0 := by decide
  omega

/-- What `createConfig` returns when every operation is allowed, in terms of
the stripped slug. -/
theorem createConfig_full (conf : Conf) (slug : String)
    (hslug : conf.slug = some slug)
    (hallow : conf.allow = some ["READ", "CREATE", "UPDATE", "DELETE"]) :
    createConfig conf = .ok
      ((match conf.model with
        | some M =>
          [{ slug := some (stripSlash slug ++ "/:id"), get := some (.crud .readOne M) },
           { slug := some (stripSlash slug), post := some (.crud .create M) },
           { slug := some (stripSlash slug ++ "/:id"), put := some (.crud .replace M) },
           { slug := some (stripSlash slug ++ "/:id"), patch := some (.crud .patch M) },
           { slug := some (stripSlash slug ++ "/:id"), delete := some (.crud .delete M) }]
        | none => []) ++
       (match conf.list with
        | some L => [{ slug := some (stripSlash slug), get := some (.crud .readList L) }]
        | none => [])) := by
  cases hm : conf.model <;> cases hl : conf.list <;>
    simp [createConfig, pushIfAllowed, allows, slugBase, hslug, hallow, hm, hl,
      bind, Except.bind, pure, Except.pure]

/-- C1 (amended): with allow = [READ, CREATE, UPDATE, DELETE] and a slug whose
stripped form is not empty, `registerRoutes` appends to the routing table, in
this order: for a configuration with both a model and a list exactly the six
entries GET slug/:id, POST slug, PUT slug/:id, PATCH slug/:id,
DELETE slug/:id, GET slug; for a model alone the first five; for a list alone
only GET slug. -/
theorem registerRoutes_all_operations (conf : Conf) (slug : String) (stack : List Layer)
    (hslug : conf.slug = some slug) (hbase : stripSlash slug ≠ "")
    (hallow : conf.allow = some ["READ", "CREATE", "UPDATE", "DELETE"]) :
    (∀ M L, conf.model = some M → conf.list = some L →
      registerRoutes conf stack = .ok (stack ++
        [crudEntry .get (stripSlash slug ++ "/:id") .readOne M,
         crudEntry .post (stripSlash slug) .create M,
         crudEntry .put (stripSlash slug ++ "/:id") .replace M,
         crudEntry .patch (stripSlash slug ++ "/:id") .patch M,
         crudEntry .delete (stripSlash slug ++ "/:id") .delete M,
         crudEntry .get (stripSlash slug) .readList L])) ∧
    (∀ M, conf.model = some M → conf.list = none →
      registerRoutes conf stack = .ok (stack ++
        [crudEntry .get (stripSlash slug ++ "/:id") .readOne M,
         crudEntry .post (stripSlash slug) .create M,
         crudEntry .put (stripSlash slug ++ "/:id") .replace M,
         crudEntry .patch (stripSlash slug ++ "/:id") .patch M,
         crudEntry .delete (stripSlash slug ++ "/:id") .delete M])) ∧
    (∀ L, conf.model = none → conf.list = some L →
      registerRoutes conf stack = .ok (stack ++
        [crudEntry .get (stripSlash slug) .readList L])) := by
  have hb := hbase
  have hid : stripSlash slug ++ "/:id" ≠ "" := by
    simpa [bne_iff_ne] using append_id_truthy (stripSlash slug)
  have hcc := createConfig_full { conf with allow := some (conf.allow.getD ["READ"]) } slug
    hslug (by simp [hallow])
  refine ⟨?_, ?_, ?_⟩
  · intro M L hm hl
    simp only [hm, hl] at hcc
    simp [registerRoutes, hm, hl, hcc, bind, Except.bind, pure, Except.pure, registerConf,
      HTTP_METHODS, Conf.handlerOf, Handler.truthy, route, crudEntry, hb, hid]
  · intro M hm hl
    simp only [hm, hl] at hcc
    simp [registerRoutes, hm, hl, hcc, bind, Except.bind, pure, Except.pure, registerConf,
      HTTP_METHODS, Conf.handlerOf, Handler.truthy, route, crudEntry, hb, hid]
  · intro L hm hl
    simp only [hm, hl] at hcc
    simp [registerRoutes, hm, hl, hcc, bind, Except.bind, pure, Except.pure, registerConf,
      HTTP_METHODS, Conf.handlerOf, Handler.truthy, route, crudEntry, hb, hid]

/-- C1, witness: slug `/foo/` with a model and a list. -/
theorem registerRoutes_all_operations_witness :
    registerRoutes
        { slug := some "/foo/", allow := some ["READ", "CREATE", "UPDATE", "DELETE"],
          model := some sampleModel, list := some sampleList } []
      = .ok ([] ++
        [crudEntry .get (stripSlash "/foo/" ++ "/:id") .readOne sampleModel,
         crudEntry .post (stripSlash "/foo/") .create sampleModel,
         crudEntry .put (stripSlash "/foo/" ++ "/:id") .replace sampleModel,
         crudEntry .patch (stripSlash "/foo/" ++ "/:id") .patch sampleModel,
         crudEntry .delete (stripSlash "/foo/" ++ "/:id") .delete sampleModel,
         crudEntry .get (stripSlash "/foo/") .readList sampleList]) :=
  (registerRoutes_all_operations
      { slug := some "/foo/", allow := some ["READ", "CREATE", "UPDATE", "DELETE"],
        model := some sampleModel, list := some sampleList }
      "/foo/" [] rfl (by decide) rfl).1 sampleModel sampleList rfl rfl

/-- C1, counterexample: with every operation allowed, a configuration that
carries only a model gets five entries (no GET on the collection path), and a
configuration with model and list under the slug `/` gets four, because the
stripped slug is the empty string and its two descriptors are skipped. -/
theorem registerRoutes_six_entries_counterexample :
    routesOf { slug := some "/foo", allow := some ["READ", "CREATE", "UPDATE", "DELETE"],
               model := some sampleModel }
      = some [(some .get, some "/foo/:id"), (some .post, some "/foo"),
              (some .put, some "/foo/:id"), (some .patch, some "/foo/:id"),
              (some .delete, some "/foo/:id")] ∧
    routesOf { slug := some "/", allow := some ["READ", "CREATE", "UPDATE", "DELETE"],
               model := some sampleModel, list := some sampleList }
      = some [(some .get, some "/:id"), (some .put, some "/:id"),
              (some .patch, some "/:id"), (some .delete, some "/:id")] := by
  constructor <;> decide

/-- What `createConfig` returns when only READ is allowed, in terms of the
stripped slug. -/
theorem createConfig_read (conf : Conf) (slug : String)
    (hslug : conf.slug = some slug) (hallow : conf.allow = some ["READ"]) :
    createConfig conf = .ok
      ((match conf.model with
        | some M =>
          [{ slug := some (stripSlash slug ++ "/:id"), get := some (.crud .readOne M) }]
        | none => []) ++
       (match conf.list with
        | some L => [{ slug := some (stripSlash slug), get := some (.crud .readList L) }]
        | none => [])) := by
  cases hm : conf.model <;> cases hl : conf.list <;>
    simp [createConfig, pushIfAllowed, allows, slugBase, hslug, hallow, hm, hl,
      bind, Except.bind, pure, Except.pure]

/-- C2 (amended): with allow = [READ] and a slug whose stripped form is not
empty, `registerRoutes` appends exactly two entries, GET slug/:id and
GET slug, when both a model and a list are given, and exactly one entry when
only one of them is given: GET slug/:id for a model, GET slug for a list. -/
theorem registerRoutes_read_only (conf : Conf) (slug : String) (stack : List Layer)
    (hslug : conf.slug = some slug) (hbase : stripSlash slug ≠ "")
    (hallow : conf.allow = some ["READ"]) :
    (∀ M L, conf.model = some M → conf.list = some L →
      registerRoutes conf stack = .ok (stack ++
        [crudEntry .get (stripSlash slug ++ "/:id") .readOne M,
         crudEntry .get (stripSlash slug) .readList L])) ∧
    (∀ M, conf.model = some M → conf.list = none →
      registerRoutes conf stack = .ok (stack ++
        [crudEntry .get (stripSlash slug ++ "/:id") .readOne M])) ∧
    (∀ L, conf.model = none → conf.list = some L →
      registerRoutes conf stack = .ok (stack ++
        [crudEntry .get (stripSlash slug) .readList L])) := by
  have hb := hbase
  have hid : stripSlash slug ++ "/:id" ≠ "" := by
    simpa [bne_iff_ne] using append_id_truthy (stripSlash slug)
  have hcc := createConfig_read { conf with allow := some (conf.allow.getD ["READ"]) } slug
    hslug (by simp [hallow])
  refine ⟨?_, ?_, ?_⟩
  · intro M L hm hl
    simp only [hm, hl] at hcc
    simp [registerRoutes, hm, hl, hcc, bind, Except.bind, pure, Except.pure, registerConf,
      HTTP_METHODS, Conf.handlerOf, Handler.truthy, route, crudEntry, hb, hid]
  · intro M hm hl
    simp only [hm, hl] at hcc
    simp [registerRoutes, hm, hl, hcc, bind, Except.bind, pure, Except.pure, registerConf,
      HTTP_METHODS, Conf.handlerOf, Handler.truthy, route, crudEntry, hb, hid]
  · intro L hm hl
    simp only [hm, hl] at hcc
    simp [registerRoutes, hm, hl, hcc, bind, Except.bind, pure, Except.pure, registerConf,
      HTTP_METHODS, Conf.handlerOf, Handler.truthy, route, crudEntry, hb, hid]

/-- C2, witness: slug `/users` with a model and a list. -/
theorem registerRoutes_read_only_witness :
    registerRoutes
        { slug := some "/users", allow := some ["READ"],
          model := some sampleModel, list := some sampleList } []
      = .ok ([] ++
        [crudEntry .get (stripSlash "/users" ++ "/:id") .readOne sampleModel,
         crudEntry .get (stripSlash "/users") .readList sampleList]) :=
  (registerRoutes_read_only
      { slug := some "/users", allow := some ["READ"],
        model := some sampleModel, list := some sampleList }
      "/users" [] rfl (by decide) rfl).1 sampleModel sampleList rfl rfl

/-- C2, counterexample: under the slug `/`, allow = [READ] with both a model
and a list registers one entry, GET /:id, not two: the collection descriptor
has the empty string as slug and is skipped. With a list alone nothing is
registered. -/
theorem registerRoutes_read_only_counterexample :
    routesOf { slug := some "/", allow := some ["READ"],
               model := some sampleModel, list := some sampleList }
      = some [(some .get, some "/:id")] ∧
    routesOf { slug := some "/", allow := some ["READ"], list := some sampleList }
      = some [] := by
  constructor <;> decide

/-- C3 (amended): for every CRUD configuration (one with a model or a list)
whose allow-list is the explicit empty list, `registerRoutes` completes and
leaves the routing table as it was, whatever the slug. -/
theorem registerRoutes_empty_allow_crud (conf : Conf) (stack : List Layer)
    (hallow : conf.allow = some [])
    (hcrud : conf.model.isSome = true ∨ conf.list.isSome = true) :
    registerRoutes conf stack = .ok stack := by
  cases hm : conf.model <;> cases hl : conf.list <;>
    simp [hm, hl] at hcrud <;>
    simp [registerRoutes, createConfig, pushIfAllowed, allows, hallow, hm, hl,
      bind, Except.bind, pure, Except.pure]

/-- C3, witness: a model configuration without a slug and with allow = []. -/
theorem registerRoutes_empty_allow_crud_witness :
    registerRoutes { allow := some [], model := some sampleModel } [] = .ok [] :=
  registerRoutes_empty_allow_crud { allow := some [], model := some sampleModel } []
    rfl (Or.inl rfl)

/-- C3, counterexample: a plain descriptor with allow = [] still has its GET
handler registered; the allow-list is only read by `createConfig`. -/
theorem registerRoutes_empty_allow_counterexample :
    routesOf { slug := some "/foo", allow := some [],
               get := some (.func (fun _ => .data (.str "Foo"))) }
      = some [(some .get, some "/foo")] := by
  decide

/-- C8: a CRUD configuration without a slug makes `registerRoutes` raise a
`TypeError`: with the default allow-list READ is allowed, and `createConfig`
calls `replace` on the missing slug before the loop that skips descriptors
without a slug is reached. -/
theorem registerRoutes_missing_slug_throws (M : ClassRef) (stack : List Layer) :
    registerRoutes { model := some M } stack
      = .error (.typeError "conf.slug is undefined") := by
  simp [registerRoutes, createConfig, pushIfAllowed, allows, slugBase,
    bind, Except.bind, pure, Except.pure]

/-- The sibling path of C8: a plain descriptor without a slug is skipped by the
loop, and the call completes with the table unchanged. -/
theorem registerRoutes_plain_missing_slug (conf : Conf) (stack : List Layer)
    (hslug : conf.slug = none) (hm : conf.model = none) (hl : conf.list = none) :
    registerRoutes conf stack = .ok stack := by
  simp [registerRoutes, registerConf, hslug, hm, hl, bind, Except.bind, pure, Except.pure]

/-! ## The response adapter: proofs -/

/-- C6 (amended): when the result of the handler is promise-like and rejects
with an error object, the adapter sets the status to `err.statusCode` if that
value is truthy and to 500 otherwise (absent, or falsy such as 0), and then
sends `err.message` as the body. -/
theorem requestHandler_rejection (fn : Handler) (req : Req) (fields : List (String × Data))
    (hres : handlerResult fn req = .ok (.thenable (.rejected (.obj fields)))) :
    (∀ code, fields.lookup "statusCode" = some code → code.truthy = true →
      requestHandler fn req
        = .ok [.status code, .send ((Data.obj fields).prop "message")]) ∧
    (∀ code, fields.lookup "statusCode" = some code → code.truthy = false →
      requestHandler fn req
        = .ok [.status (.num 500), .send ((Data.obj fields).prop "message")]) ∧
    (fields.lookup "statusCode" = none →
      requestHandler fn req
        = .ok [.status (.num 500), .send ((Data.obj fields).prop "message")]) := by
  refine ⟨?_, ?_, ?_⟩
  · intro code hcode htruthy
    simp [requestHandler, hres, Except.map, respond, onRejected, Data.prop, Data.orElse,
      hcode, htruthy]
  · intro code hcode hfalsy
    simp [requestHandler, hres, Except.map, respond, onRejected, Data.prop, Data.orElse,
      hcode, hfalsy]
  · intro hnone
    simp [requestHandler, hres, Except.map, respond, onRejected, Data.prop, Data.orElse,
      hnone, Data.truthy]

/-- C6, witness: rejection with `{statusCode: 404, message: 'not found'}`
gives status 404 and body `not found`. -/
theorem requestHandler_rejection_witness :
    requestHandler
        (.func (fun _ => .thenable (.rejected
          (.obj [("statusCode", .num 404), ("message", .str "not found")]))))
        { acceptsJson := true }
      = .ok [.status (.num 404), .send (.str "not found")] :=
  (requestHandler_rejection
      (.func (fun _ => .thenable (.rejected
        (.obj [("statusCode", .num 404), ("message", .str "not found")]))))
      { acceptsJson := true }
      [("statusCode", .num 404), ("message", .str "not found")] rfl).1
    (.num 404) (by rfl) (by decide)

/-- C6, counterexample: an error that carries the status code 0 is answered
with status 500, not with the status code it carries. -/
theorem requestHandler_rejection_counterexample :
    requestHandler
        (.func (fun _ => .thenable (.rejected
          (.obj [("statusCode", .num 0), ("message", .str "offline")]))))
        { acceptsJson := true }
      = .ok [.status (.num 500), .send (.str "offline")] ∧
    requestHandler
        (.func (fun _ => .thenable (.rejected
          (.obj [("statusCode", .num 0), ("message", .str "offline")]))))
        { acceptsJson := true }
      ≠ .ok [.status (.num 0), .send (.str "offline")] := by
  constructor
  · rfl
  · intro h
    have h' : (Except.ok [ResAction.status (.num 500), ResAction.send (.str "offline")] :
        Except JsError (List ResAction))
        = .ok [.status (.num 0), .send (.str "offline")] := h
    simp at h'

/-- C7: for the result `'Foo'`, returned directly or as the resolution of a
promise, with or without JSON acceptance, the adapter only sets status 200:
no call on the response carries the value, and the response is not ended. -/
theorem requestHandler_string_sends_no_body (req : Req) :
    requestHandler (.func (fun _ => .data (.str "Foo"))) req
      = .ok [.status (.num 200)] ∧
    requestHandler (.func (fun _ => .thenable (.resolved (.str "Foo")))) req
      = .ok [.status (.num 200)] := by
  constructor <;>
    simp [requestHandler, handlerResult, Except.map, respond, onValue, Data.truthy,
      Data.typeof]

/-- C9: when the result of the handler is falsy, the adapter answers the empty
string with content type text/plain, status 204 and an ended response, and
makes no call on the response for any other falsy result; so it acts exactly
when the result is the empty string. -/
theorem requestHandler_falsy (fn : Handler) (req : Req) (p : JsVal)
    (hres : handlerResult fn req = .ok p) (hfalsy : p.truthy = false) :
    (p = .data (.str "") →
      requestHandler fn req = .ok [.type "text/plain", .status (.num 204), .end_]) ∧
    (p ≠ .data (.str "") → requestHandler fn req = .ok []) ∧
    (requestHandler fn req ≠ .ok [] ↔ p = .data (.str "")) := by
  have hempty : p = .data (.str "") →
      requestHandler fn req = .ok [.type "text/plain", .status (.num 204), .end_] := by
    intro hp
    subst hp
    simp [requestHandler, hres, Except.map, respond, Data.truthy, Data.isEmptyStr]
  have hother : p ≠ .data (.str "") → requestHandler fn req = .ok [] := by
    intro hp
    cases p with
    | thenable s => simp [JsVal.truthy] at hfalsy
    | data d =>
      have hd : d.truthy = false := hfalsy
      have hne : d.isEmptyStr = false := by
        cases d with
        | str s =>
          have hs : s ≠ "" := fun h => hp (by rw [h])
          simpa [Data.isEmptyStr] using hs
        | _ => rfl
      simp [requestHandler, hres, Except.map, respond, hd, hne]
  refine ⟨hempty, hother, ?_⟩
  constructor
  · intro hact
    by_contra hp
    exact hact (hother hp)
  · intro hp hnil
    rw [hempty hp] at hnil
    simp at hnil

/-- C9, witness: a handler returning the empty string to a request that does
not accept JSON. -/
theorem requestHandler_falsy_witness :
    requestHandler (.func (fun _ => .data (.str ""))) { acceptsJson := false }
      = .ok [.type "text/plain", .status (.num 204), .end_] :=
  (requestHandler_falsy (.func (fun _ => .data (.str ""))) { acceptsJson := false }
    (.data (.str "")) rfl (by decide)).1 rfl

/-- C10: when the result of the handler is a plain object, returned directly
or as the resolution of a promise-like result, and the request accepts JSON,
the adapter sets status 200 and sends the object with `res.json`. -/
theorem requestHandler_object_json (fn : Handler) (req : Req)
    (fields : List (String × Data)) (haccept : req.acceptsJson = true)
    (hres : handlerResult fn req = .ok (.data (.obj fields)) ∨
      handlerResult fn req = .ok (.thenable (.resolved (.obj fields)))) :
    requestHandler fn req = .ok [.status (.num 200), .json (.obj fields)] := by
  rcases hres with hres | hres <;>
    simp [requestHandler, hres, Except.map, respond, onValue, Data.truthy, Data.typeof,
      haccept]

/-- C10, witness: the object `{name: 'Foo'}` given as a constant handler. -/
theorem requestHandler_object_json_witness :
    requestHandler (.value (.data (.obj [("name", .str "Foo")]))) { acceptsJson := true }
      = .ok [.status (.num 200), .json (.obj [("name", .str "Foo")])] :=
  requestHandler_object_json (.value (.data (.obj [("name", .str "Foo")])))
    { acceptsJson := true } [("name", .str "Foo")] rfl (Or.inl (by rfl))

end CoreIO
